/-
  Verification of the Duplicate Resolution & Merge Engine of the
  DATA_CLEANER_BACKEND repository.

  Shallow embedding notes:
  - The relational tables (entity, people, address, entity_property) are
    modelled as lists of records inside `DBState`; primary-key generation
    (DB auto-increment) is modelled by `fresh*Id` (max existing id + 1).
  - Timestamps are modelled as `Nat`; the JS `Date` parsing performed by
    `sanitizeDate` is abstracted: a payload date is `Option Nat` where
    `none` stands for a missing/empty/unparseable date (which the source
    maps to `null`) and `some t` for a parseable one (mapped to itself).
  - Prisma semantics: `update` on a row that does not exist raises
    (P2025) and aborts the interactive transaction; `updateMany` /
    `deleteMany` never raise on empty matches; `findMany` with an `in`
    filter returns each matching row once.  A transaction abort rolls the
    state back (the controller returns the original state with an error).
  - Request payloads are modelled at their declared TypeScript types, so
    the runtime `Array.isArray` checks always pass; JS truthiness of a
    numeric id is modelled by `≠ 0`; an optional field that Prisma skips
    when `undefined` (`trade_name`) is modelled as `Option (Option String)`.
  - The audit `writeFile` inside the transaction is an external sink that
    does not touch the four tables; it is not part of `DBState`.
-/
import Mathlib

set_option maxHeartbeats 1600000

/-! ## Data model (tables of the entities database) -/

structure Entity where
  entity_id : Nat
  name : Option String
  trade_name : Option String
  type : Nat
  is_deleted : Bool
  deleted_at : Option Nat
  updated_at : Option Nat
  deriving Repr, DecidableEq

structure People where
  people_id : Nat
  entity_id : Nat
  first_name : Option String
  last_name : Option String
  date_of_birth : Option Nat
  deleted_at : Option Nat
  created_at : Option Nat
  updated_at : Option Nat
  deriving Repr, DecidableEq

structure Address where
  address_id : Nat
  entity_id : Nat
  is_primary : Option String
  location : String
  deleted_at : Option Nat
  created_at : Option Nat
  updated_at : Option Nat
  deriving Repr, DecidableEq

structure EntityProperty where
  entity_property_id : Nat
  entity_id : Nat
  property_id : Nat
  property_value : Option String
  is_primary : Option String
  created_at : Option Nat
  updated_at : Option Nat
  deriving Repr, DecidableEq

structure DBState where
  entity : List Entity
  people : List People
  address : List Address
  entity_property : List EntityProperty
  deriving Repr, DecidableEq

/-! ## JS string primitives

`String.prototype.toLowerCase` / `trim` are modelled directly over the
character list (Lean core's `String.toLower`/`String.trim` are
position-based and do not reduce definitionally, which would block
evaluating the embedding on concrete inputs). -/

def jsToLowerCase (s : String) : String :=
  String.mk (s.data.map Char.toLower)

def jsTrim (s : String) : String :=
  String.mk (((s.data.dropWhile Char.isWhitespace).reverse.dropWhile
    Char.isWhitespace).reverse)

/-! ## Candidate grouper (dataCleanUp controllers)

`getDuplicatePeopleByFullNameController` computes, per person,
`fullName = [first_name?.trim().toLowerCase() || "", last_name?...].filter(Boolean).join(" ")`,
skips empty keys, groups by key in insertion order and keeps groups of
size ≥ 2.  The entity controllers
(`getDuplicateEntitiesByFullNameController`,
`getDuplicateEntitiesByNameWithTypeController`) use `entity.name || ""`
as the key — the raw name, with no trim/lowercase. -/

def personGroupKey (first_name last_name : Option String) : String :=
  let fn := jsToLowerCase (jsTrim (first_name.getD ""))
  let ln := jsToLowerCase (jsTrim (last_name.getD ""))
  String.intercalate " " (([fn, ln]).filter (fun s => s ≠ ""))

def entityGroupKey (name : Option String) : String :=
  name.getD ""

/-- Modelled from the spec (§4.1): "trim and lowercase the designated
name field(s)" — the grouping key the spec claims for a non-person
record's name.  Used only to compare against the code's `entityGroupKey`. -/
def specEntityGroupKey (name : Option String) : String :=
  jsToLowerCase (jsTrim (name.getD ""))

/-- Modelled from the spec (§4.1): "for person-like records concatenate
normalized first and last name with a single separator, omitting empty
parts". Used only to compare against the code's `personGroupKey`. -/
def specPersonGroupKey (first_name last_name : Option String) : String :=
  let fn := jsToLowerCase (jsTrim (first_name.getD ""))
  let ln := jsToLowerCase (jsTrim (last_name.getD ""))
  if fn = "" then ln else if ln = "" then fn else fn ++ " " ++ ln

/-- One step of the `nameGroups` Map-building loop: skip an empty key,
append the record to its group when the key is present, otherwise append
a fresh group (JS `Map` preserves insertion order). -/
def addToGroups {α : Type} (keyOf : α → String) (groups : List (String × List α))
    (r : α) : List (String × List α) :=
  let k := keyOf r
  if k = "" then groups
  else if groups.any (fun g => g.1 = k) then
    groups.map (fun g => if g.1 = k then (g.1, g.2 ++ [r]) else g)
  else groups ++ [(k, [r])]

def nameGroupsOf {α : Type} (keyOf : α → String) (records : List α) :
    List (String × List α) :=
  records.foldl (addToGroups keyOf) []

/-- The groups the controllers emit: only those with 2 or more members. -/
def duplicateGroupsOf {α : Type} (keyOf : α → String) (records : List α) :
    List (String × List α) :=
  (nameGroupsOf keyOf records).filter (fun g => 2 ≤ g.2.length)

/-- `getDuplicatePeopleByFullNameController`: people with non-null
first_name, grouped by full name; result is the list of duplicated full
names. -/
def getDuplicatePeopleByFullName (db : DBState) : List String :=
  let people := db.people.filter (fun p => p.first_name ≠ none)
  (duplicateGroupsOf (fun p : People => personGroupKey p.first_name p.last_name)
    people).map (fun g => g.1)

/-- The grouping pipeline shared by the two duplicate-entity
controllers, on already-fetched entity rows. -/
def entityDuplicateGroups (entities : List Entity) : List (String × List Entity) :=
  duplicateGroupsOf (fun e : Entity => entityGroupKey e.name) entities

/-- `getDuplicateEntitiesByFullNameController`: entities of type 2, not
deleted; result is the list of duplicated names. -/
def getDuplicateEntitiesByFullName (db : DBState) : List String :=
  let entities := db.entity.filter (fun e => e.type = 2 && !e.is_deleted)
  (entityDuplicateGroups entities).map (fun g => g.1)

structure DuplicateGroupCount where
  name : String
  duplicateCount : Nat
  deriving Repr, DecidableEq

structure PaginationInfo where
  limit : Nat
  page : Nat
  offset : Nat
  total : Nat
  deriving Repr, DecidableEq

structure PaginatedDuplicateGroups where
  duplicateGroups : List DuplicateGroupCount
  pagination : PaginationInfo
  deriving Repr, DecidableEq

/-- The full (unpaginated) `duplicateGroups` array built by
`getDuplicateEntitiesByNameWithTypeController` for a given type. -/
def fullDuplicateGroupsByType (db : DBState) (parsedType : Nat) :
    List DuplicateGroupCount :=
  let entities := db.entity.filter
    (fun e => e.type = parsedType && !e.is_deleted && e.deleted_at = none)
  (entityDuplicateGroups entities).map
    (fun g => { name := g.1, duplicateCount := g.2.length })

/-- `getDuplicateEntitiesByNameWithTypeController` after the zod parse of
`page`/`limit` (defaults 1 and 20, both constrained to ≥ 1): `none`
models the BadRequest thrown for an unrecognized entity type. -/
def getDuplicateEntitiesByNameWithType (db : DBState) (parsedType : Nat)
    (page limit : Nat) : Option PaginatedDuplicateGroups :=
  if parsedType = 1 ∨ parsedType = 2 then
    let offset := (page - 1) * limit
    let duplicateGroups := fullDuplicateGroupsByType db parsedType
    let paginatedResult := (duplicateGroups.drop offset).take limit
    some { duplicateGroups := paginatedResult,
           pagination := { limit := limit, page := page, offset := offset,
                           total := duplicateGroups.length } }
  else none

/-! ## Merge planner: property merge of the analyze pass

`getPotentialDuplicatePeopleGroupsController` builds `propMap`, a JS
`Map` keyed by the string `` `${prop.property_id}_${prop.property_value.trim().toLowerCase()}` ``
over the union of the kept entity's and the removed entities'
properties; properties with a falsy `property_value` (null or `""`) are
skipped; the first-seen record is kept (with `entity_id` rewritten to
the kept entity) and on a key collision `is_primary` is set to `"Yes"`
when the colliding record is primary. -/

/-- JS truthiness of `prop.property_value` (`!prop.property_value`). -/
def truthyValue (v : Option String) : Bool :=
  match v with
  | none => false
  | some s => s ≠ ""

/-- The string key `` `${property_id}_${value.trim().toLowerCase()}` ``. -/
def propMapKey (p : EntityProperty) : String :=
  toString p.property_id ++ "_" ++ jsToLowerCase (jsTrim (p.property_value.getD ""))

/-- The `(property_type, normalized value)` pair the spec speaks of;
`propMapKey` is a function of this pair. -/
def propPair (p : EntityProperty) : Nat × String :=
  (p.property_id, jsToLowerCase (jsTrim (p.property_value.getD "")))

/-- One iteration of the `for (const prop of allProps)` loop over the
insertion-ordered `propMap` (modelled as an association list). -/
def propMapInsert (keptEntityId : Nat) (acc : List (String × EntityProperty))
    (p : EntityProperty) : List (String × EntityProperty) :=
  if truthyValue p.property_value then
    let key := propMapKey p
    if acc.any (fun kv => kv.1 = key) then
      if p.is_primary = some "Yes" then
        acc.map (fun kv => if kv.1 = key then (kv.1, { kv.2 with is_primary := some "Yes" }) else kv)
      else acc
    else acc ++ [(key, { p with entity_id := keptEntityId })]
  else acc

/-- `mergedProperties = Array.from(propMap.values())` over
`allProps = keptRecord.entity.properties ++ removedRecords.flatMap(...)`. -/
def mergedPropertiesOf (keptEntityId : Nat) (allProps : List EntityProperty) :
    List EntityProperty :=
  (allProps.foldl (propMapInsert keptEntityId) []).map (fun kv => kv.2)

/-! ## Merge request payload (ApplyMergePayload) -/

/-- `Omit<people, "entity_id">` as submitted by the client; a missing /
zero `people_id` is the falsy case of `person.people_id &&`. -/
structure PersonPayload where
  people_id : Nat
  first_name : Option String
  last_name : Option String
  date_of_birth : Option Nat
  deleted_at : Option Nat
  created_at : Option Nat
  updated_at : Option Nat
  deriving Repr, DecidableEq

structure AddressPayload where
  address_id : Nat
  is_primary : Option String
  location : String
  deleted_at : Option Nat
  created_at : Option Nat
  updated_at : Option Nat
  deriving Repr, DecidableEq

structure PropertyPayload where
  entity_property_id : Nat
  property_id : Nat
  property_value : Option String
  is_primary : Option String
  created_at : Option Nat
  updated_at : Option Nat
  deriving Repr, DecidableEq

structure MergedEntityPayload where
  name : Option String
  /-- `trade_name?: string | null`: outer `none` = field absent
  (Prisma leaves the column unchanged), `some v` = set the column to `v`. -/
  trade_name : Option (Option String)
  people : List PersonPayload
  address : List AddressPayload
  entity_property_entity_property_entity_idToentity : List PropertyPayload
  deriving Repr, DecidableEq

structure ApplyMergePayload where
  keep_entity_id : Nat
  remove_entity_ids : List Nat
  merged_entity : MergedEntityPayload
  deriving Repr, DecidableEq

/-- Failure inside the Prisma interactive transaction. -/
inductive TxError where
  /-- P2025: `update` targeted a row that does not exist. -/
  | recordNotFound : TxError
  deriving Repr, DecidableEq

/-- Errors surfaced by the two resolve-duplicates controllers (each is a
`RouteError.BadRequest` with the indicated message). -/
inductive MergeError where
  | keepEntityIdRequired : MergeError
  | removeEntityIdsEmpty : MergeError
  | keepInRemove : MergeError
  /-- `Invalid entity IDs: ... not found or already deleted`, carrying the
  `missing` id list interpolated into the message. -/
  | entitiesNotFound : List Nat → MergeError
  | keepEntityNotFound : MergeError
  /-- `Failed to apply merge: ...` after the transaction rolled back. -/
  | mergeFailed : TxError → MergeError
  deriving Repr, DecidableEq

/-- Spec §7 taxonomy: the structural-input failures are ValidationErrors;
`entitiesNotFound` is the NotFoundError; `mergeFailed` a TransactionError. -/
def MergeError.isValidationError : MergeError → Bool
  | .keepEntityIdRequired => true
  | .removeEntityIdsEmpty => true
  | .keepInRemove => true
  | _ => false

structure MergeResponse where
  merged_entity_id : Nat
  deleted_entity_ids : List Nat
  applied : Bool
  deriving Repr, DecidableEq

/-! ## Merge executor (the Prisma transaction) -/

/-- JS date sanitizer: missing/empty/unparseable dates become null.  The
`Option Nat` payload date already separates the unparseable case
(`none`) from a parsed timestamp (`some t`), so the sanitizer maps each
case to itself. -/
def sanitizeDate (date : Option Nat) : Option Nat :=
  match date with
  | none => none
  | some t => some t

def freshPeopleId (s : DBState) : Nat :=
  (s.people.map (fun r => r.people_id)).foldr max 0 + 1

def freshAddressId (s : DBState) : Nat :=
  (s.address.map (fun r => r.address_id)).foldr max 0 + 1

def freshPropertyId (s : DBState) : Nat :=
  (s.entity_property.map (fun r => r.entity_property_id)).foldr max 0 + 1

/-- Transaction step 1: `tx.entity.update` on the kept entity (name,
trade_name, updated_at).  Fails if the row is absent (P2025). -/
def updateKeptEntityStep (keep : Nat) (name : Option String)
    (trade_name : Option (Option String)) (keptName : Option String)
    (now : Nat) (s : DBState) : Except TxError DBState :=
  if s.entity.any (fun e => e.entity_id = keep) then
    .ok { s with entity := s.entity.map (fun e =>
      if e.entity_id = keep then
        { e with
          name := match name with | some n => some n | none => keptName,
          trade_name := match trade_name with | some v => v | none => e.trade_name,
          updated_at := some now }
      else e) }
  else .error .recordNotFound

/-- Transaction step 2 body: upsert of one payload person. -/
def personUpsertStep (keep : Nat) (keptPeopleIds : List Nat) (now : Nat)
    (s : DBState) (person : PersonPayload) : Except TxError DBState :=
  if person.people_id ≠ 0 ∧ person.people_id ∈ keptPeopleIds then
    if s.people.any (fun r => r.people_id = person.people_id) then
      .ok { s with people := s.people.map (fun r =>
        if r.people_id = person.people_id then
          { people_id := r.people_id
            entity_id := keep
            first_name := person.first_name
            last_name := person.last_name
            date_of_birth := sanitizeDate person.date_of_birth
            deleted_at := person.deleted_at
            created_at := sanitizeDate person.created_at
            updated_at := some now }
        else r) }
    else .error .recordNotFound
  else
    .ok { s with people := s.people ++
      [{ people_id := freshPeopleId s
         entity_id := keep
         first_name := person.first_name
         last_name := person.last_name
         date_of_birth := sanitizeDate person.date_of_birth
         deleted_at := person.deleted_at
         created_at := some now
         updated_at := some now }] }

/-- New address row created by `tx.address.create` (payload id stripped). -/
def createdAddressRow (keep : Nat) (now : Nat) (s : DBState)
    (addr : AddressPayload) : Address :=
  { address_id := freshAddressId s
    entity_id := keep
    is_primary := addr.is_primary
    location := addr.location
    deleted_at := addr.deleted_at
    created_at := some now
    updated_at := some now }

/-- Transaction step 3 body: upsert of one payload address.  On the
update path the source strips `is_primary` (the existing row keeps its
flag) before `tx.address.update`. -/
def addressUpsertStep (keep : Nat) (keptAddressIds : List Nat) (now : Nat)
    (s : DBState) (addr : AddressPayload) : Except TxError DBState :=
  if addr.address_id ≠ 0 then
    if addr.address_id ∈ keptAddressIds then
      if s.address.any (fun r => r.address_id = addr.address_id) then
        .ok { s with address := s.address.map (fun r =>
          if r.address_id = addr.address_id then
            { address_id := r.address_id
              entity_id := keep
              is_primary := r.is_primary
              location := addr.location
              deleted_at := addr.deleted_at
              created_at := sanitizeDate addr.created_at
              updated_at := some now }
          else r) }
      else .error .recordNotFound
    else
      .ok { s with address := s.address ++ [createdAddressRow keep now s addr] }
  else
    .ok { s with address := s.address ++ [createdAddressRow keep now s addr] }

/-- New property row created by `tx.entity_property.create`. -/
def createdPropertyRow (keep : Nat) (now : Nat) (s : DBState)
    (prop : PropertyPayload) : EntityProperty :=
  { entity_property_id := freshPropertyId s
    entity_id := keep
    property_id := prop.property_id
    property_value := prop.property_value
    is_primary := prop.is_primary
    created_at := some now
    updated_at := some now }

/-- Transaction step 4 body: upsert of one payload property.  Note the
update path targets a row that step "Small adjustment" (`deleteMany`
on the kept entity's properties) has already removed. -/
def propertyUpsertStep (keep : Nat) (keptPropertyIds : List Nat) (now : Nat)
    (s : DBState) (prop : PropertyPayload) : Except TxError DBState :=
  if prop.entity_property_id ≠ 0 then
    if prop.entity_property_id ∈ keptPropertyIds then
      if s.entity_property.any (fun r => r.entity_property_id = prop.entity_property_id) then
        .ok { s with entity_property := s.entity_property.map (fun r =>
          if r.entity_property_id = prop.entity_property_id then
            { entity_property_id := r.entity_property_id
              entity_id := keep
              property_id := prop.property_id
              property_value := prop.property_value
              is_primary := prop.is_primary
              created_at := sanitizeDate prop.created_at
              updated_at := some now }
          else r) }
      else .error .recordNotFound
    else
      .ok { s with entity_property := s.entity_property ++ [createdPropertyRow keep now s prop] }
  else
    .ok { s with entity_property := s.entity_property ++ [createdPropertyRow keep now s prop] }

/-- `tx.people.updateMany` soft-deleting the removed entities' people
(the source runs it only when the id list is non-empty; an empty run is
a no-op either way). -/
def softDeleteRemovedPeople (peopleToDelete : List Nat) (now : Nat)
    (s : DBState) : DBState :=
  if peopleToDelete.isEmpty then s
  else { s with people := s.people.map (fun r =>
    if r.people_id ∈ peopleToDelete then { r with deleted_at := some now } else r) }

/-- `tx.address.updateMany` soft-deleting the removed entities' addresses. -/
def softDeleteRemovedAddresses (addressesToDelete : List Nat) (now : Nat)
    (s : DBState) : DBState :=
  if addressesToDelete.isEmpty then s
  else { s with address := s.address.map (fun r =>
    if r.address_id ∈ addressesToDelete then { r with deleted_at := some now } else r) }

/-- "Small adjustment": `tx.entity_property.deleteMany` of every
property owned by the kept entity. -/
def deleteKeptEntityProperties (keep : Nat) (s : DBState) : DBState :=
  { s with entity_property := s.entity_property.filter (fun r => r.entity_id ≠ keep) }

/-- `tx.entity_property.deleteMany` hard-deleting the removed entities'
original property rows. -/
def hardDeleteRemovedProperties (propertiesToDelete : List Nat) (s : DBState) : DBState :=
  if propertiesToDelete.isEmpty then s
  else { s with entity_property :=
    s.entity_property.filter (fun r => r.entity_property_id ∉ propertiesToDelete) }

/-- Step 5: `tx.entity.updateMany` soft-deleting the removed entities;
the audit writeFile that follows is an external sink with no table
change. -/
def softDeleteRemovedEntities (remove_entity_ids : List Nat) (now : Nat)
    (s : DBState) : DBState :=
  { s with entity := s.entity.map (fun e =>
    if e.entity_id ∈ remove_entity_ids then
      { e with is_deleted := true, deleted_at := some now }
    else e) }

/-- The `$transaction` body of `applyEntitiesDuplicateMergeController`,
with the pre-fetched snapshot data (kept entity name, sub-record id
lists of the kept and removed entities) passed in. -/
def mergeTransaction (keep : Nat) (remove_entity_ids : List Nat)
    (merged : MergedEntityPayload) (keptName : Option String)
    (keptPeopleIds keptAddressIds keptPropertyIds : List Nat)
    (peopleToDelete addressesToDelete propertiesToDelete : List Nat)
    (now : Nat) (db : DBState) : Except TxError DBState :=
  match updateKeptEntityStep keep merged.name merged.trade_name keptName now db with
  | .error e => .error e
  | .ok s1 =>
    match merged.people.foldlM (personUpsertStep keep keptPeopleIds now) s1 with
    | .error e => .error e
    | .ok s2 =>
      match merged.address.foldlM (addressUpsertStep keep keptAddressIds now)
          (softDeleteRemovedPeople peopleToDelete now s2) with
      | .error e => .error e
      | .ok s4 =>
        match merged.entity_property_entity_property_entity_idToentity.foldlM
            (propertyUpsertStep keep keptPropertyIds now)
            (deleteKeptEntityProperties keep
              (softDeleteRemovedAddresses addressesToDelete now s4)) with
        | .error e => .error e
        | .ok s7 =>
          .ok (softDeleteRemovedEntities remove_entity_ids now
            (hardDeleteRemovedProperties propertiesToDelete s7))

/-- `applyEntitiesDuplicateMergeController` (`POST
/entities/resolve-duplicates`): validation, snapshot fetch, transaction.
Returns the resulting database state (unchanged on every error path: the
transaction rolls back) and the response or error. -/
def applyEntitiesDuplicateMergeController (db : DBState) (now : Nat)
    (payload : ApplyMergePayload) : DBState × Except MergeError MergeResponse :=
  if payload.keep_entity_id = 0 then
    (db, .error .keepEntityIdRequired)
  else if payload.remove_entity_ids.isEmpty then
    (db, .error .removeEntityIdsEmpty)
  else if payload.keep_entity_id ∈ payload.remove_entity_ids then
    (db, .error .keepInRemove)
  else
    -- the three Array.isArray checks always pass at the declared payload type
    let allEntityIds := payload.keep_entity_id :: payload.remove_entity_ids
    let entities := db.entity.filter
      (fun e => decide (e.entity_id ∈ allEntityIds) && !e.is_deleted)
    if entities.length ≠ allEntityIds.length then
      let foundIds := entities.map (fun e => e.entity_id)
      (db, .error (.entitiesNotFound (allEntityIds.filter (fun i => i ∉ foundIds))))
    else
      match entities.find? (fun e => e.entity_id = payload.keep_entity_id) with
      | none => (db, .error .keepEntityNotFound)
      | some keptEntity =>
        let removedEntities := entities.filter
          (fun e => decide (e.entity_id ∈ payload.remove_entity_ids))
        let keptPeopleIds := (db.people.filter
          (fun r => r.entity_id = keptEntity.entity_id)).map (fun r => r.people_id)
        let keptAddressIds := (db.address.filter
          (fun r => r.entity_id = keptEntity.entity_id)).map (fun r => r.address_id)
        let keptPropertyIds := (db.entity_property.filter
          (fun r => r.entity_id = keptEntity.entity_id)).map (fun r => r.entity_property_id)
        let peopleToDelete := removedEntities.flatMap (fun e =>
          (db.people.filter (fun r => r.entity_id = e.entity_id)).map (fun r => r.people_id))
        let addressesToDelete := removedEntities.flatMap (fun e =>
          (db.address.filter (fun r => r.entity_id = e.entity_id)).map (fun r => r.address_id))
        let propertiesToDelete := removedEntities.flatMap (fun e =>
          (db.entity_property.filter (fun r => r.entity_id = e.entity_id)).map
            (fun r => r.entity_property_id))
        match mergeTransaction payload.keep_entity_id payload.remove_entity_ids
            payload.merged_entity keptEntity.name keptPeopleIds keptAddressIds
            keptPropertyIds peopleToDelete addressesToDelete propertiesToDelete
            now db with
        | .error e => (db, .error (.mergeFailed e))
        | .ok s' =>
          (s', .ok { merged_entity_id := payload.keep_entity_id,
                     deleted_entity_ids := payload.remove_entity_ids,
                     applied := true })

/-- The `$transaction` body of `applyEntitiesDuplicateMergeManuallyController`
(source lines 423–622), which duplicates the other controller's
transaction text verbatim. -/
def mergeTransactionManually (keep : Nat) (remove_entity_ids : List Nat)
    (merged : MergedEntityPayload) (keptName : Option String)
    (keptPeopleIds keptAddressIds keptPropertyIds : List Nat)
    (peopleToDelete addressesToDelete propertiesToDelete : List Nat)
    (now : Nat) (db : DBState) : Except TxError DBState :=
  match updateKeptEntityStep keep merged.name merged.trade_name keptName now db with
  | .error e => .error e
  | .ok s1 =>
    match merged.people.foldlM (personUpsertStep keep keptPeopleIds now) s1 with
    | .error e => .error e
    | .ok s2 =>
      match merged.address.foldlM (addressUpsertStep keep keptAddressIds now)
          (softDeleteRemovedPeople peopleToDelete now s2) with
      | .error e => .error e
      | .ok s4 =>
        match merged.entity_property_entity_property_entity_idToentity.foldlM
            (propertyUpsertStep keep keptPropertyIds now)
            (deleteKeptEntityProperties keep
              (softDeleteRemovedAddresses addressesToDelete now s4)) with
        | .error e => .error e
        | .ok s7 =>
          .ok (softDeleteRemovedEntities remove_entity_ids now
            (hardDeleteRemovedProperties propertiesToDelete s7))

/-- `applyEntitiesDuplicateMergeManuallyController` (`POST
/entities/resolve-duplicates/manual`, source lines 340–640): a verbatim
duplicate of `applyEntitiesDuplicateMergeController`. -/
def applyEntitiesDuplicateMergeManuallyController (db : DBState) (now : Nat)
    (payload : ApplyMergePayload) : DBState × Except MergeError MergeResponse :=
  if payload.keep_entity_id = 0 then
    (db, .error .keepEntityIdRequired)
  else if payload.remove_entity_ids.isEmpty then
    (db, .error .removeEntityIdsEmpty)
  else if payload.keep_entity_id ∈ payload.remove_entity_ids then
    (db, .error .keepInRemove)
  else
    let allEntityIds := payload.keep_entity_id :: payload.remove_entity_ids
    let entities := db.entity.filter
      (fun e => decide (e.entity_id ∈ allEntityIds) && !e.is_deleted)
    if entities.length ≠ allEntityIds.length then
      let foundIds := entities.map (fun e => e.entity_id)
      (db, .error (.entitiesNotFound (allEntityIds.filter (fun i => i ∉ foundIds))))
    else
      match entities.find? (fun e => e.entity_id = payload.keep_entity_id) with
      | none => (db, .error .keepEntityNotFound)
      | some keptEntity =>
        let removedEntities := entities.filter
          (fun e => decide (e.entity_id ∈ payload.remove_entity_ids))
        let keptPeopleIds := (db.people.filter
          (fun r => r.entity_id = keptEntity.entity_id)).map (fun r => r.people_id)
        let keptAddressIds := (db.address.filter
          (fun r => r.entity_id = keptEntity.entity_id)).map (fun r => r.address_id)
        let keptPropertyIds := (db.entity_property.filter
          (fun r => r.entity_id = keptEntity.entity_id)).map (fun r => r.entity_property_id)
        let peopleToDelete := removedEntities.flatMap (fun e =>
          (db.people.filter (fun r => r.entity_id = e.entity_id)).map (fun r => r.people_id))
        let addressesToDelete := removedEntities.flatMap (fun e =>
          (db.address.filter (fun r => r.entity_id = e.entity_id)).map (fun r => r.address_id))
        let propertiesToDelete := removedEntities.flatMap (fun e =>
          (db.entity_property.filter (fun r => r.entity_id = e.entity_id)).map
            (fun r => r.entity_property_id))
        match mergeTransactionManually payload.keep_entity_id payload.remove_entity_ids
            payload.merged_entity keptEntity.name keptPeopleIds keptAddressIds
            keptPropertyIds peopleToDelete addressesToDelete propertiesToDelete
            now db with
        | .error e => (db, .error (.mergeFailed e))
        | .ok s' =>
          (s', .ok { merged_entity_id := payload.keep_entity_id,
                     deleted_entity_ids := payload.remove_entity_ids,
                     applied := true })

/-! ## Lemmas: candidate grouper -/

/-- The well-formedness each `nameGroups` entry keeps through one loop
iteration: a non-empty key shared by every member, and at least one
member. -/
def GroupWF {α : Type} (keyOf : α → String) (g : String × List α) : Prop :=
  g.1 ≠ "" ∧ g.2 ≠ [] ∧ ∀ m ∈ g.2, keyOf m = g.1

theorem addToGroups_wf {α : Type} (keyOf : α → String)
    (groups : List (String × List α)) (r : α)
    (h : ∀ g ∈ groups, GroupWF keyOf g) :
    ∀ g ∈ addToGroups keyOf groups r, GroupWF keyOf g := by
  intro g hg
  unfold addToGroups at hg
  by_cases hk : keyOf r = ""
  · simp only [hk, if_pos rfl] at hg
    exact h g hg
  · simp only [if_neg hk] at hg
    by_cases hmem : groups.any (fun g => g.1 = keyOf r)
    · simp only [hmem, if_pos] at hg
      rcases List.mem_map.mp hg with ⟨g0, hg0, hmap⟩
      by_cases heq : g0.1 = keyOf r
      · simp only [heq, if_pos] at hmap
        subst hmap
        rcases h g0 hg0 with ⟨_, _, h3⟩
        refine ⟨hk, by simp, ?_⟩
        intro m hm
        rcases List.mem_append.mp hm with hm1 | hm2
        · exact (h3 m hm1).trans heq
        · simp only [List.mem_singleton] at hm2
          subst hm2
          rfl
      · simp only [if_neg heq] at hmap
        subst hmap
        exact h g0 hg0
    · simp only [hmem, if_neg] at hg
      rcases List.mem_append.mp hg with hg1 | hg2
      · exact h g hg1
      · simp only [List.mem_singleton] at hg2
        subst hg2
        exact ⟨hk, by simp, by intro m hm; simp only [List.mem_singleton] at hm; subst hm; rfl⟩

theorem nameGroupsOf_wf {α : Type} (keyOf : α → String) (records : List α) :
    ∀ g ∈ nameGroupsOf keyOf records, GroupWF keyOf g := by
  unfold nameGroupsOf
  suffices h : ∀ (rs : List α) (acc : List (String × List α)),
      (∀ g ∈ acc, GroupWF keyOf g) → ∀ g ∈ rs.foldl (addToGroups keyOf) acc, GroupWF keyOf g by
    exact h records [] (by intro g hg; cases hg)
  intro rs
  induction rs with
  | nil => intro acc hacc; simpa using hacc
  | cons r rs ih =>
    intro acc hacc
    exact ih (addToGroups keyOf acc r) (addToGroups_wf keyOf acc r hacc)

theorem duplicateGroupsOf_wf {α : Type} (keyOf : α → String) (records : List α) :
    ∀ g ∈ duplicateGroupsOf keyOf records,
      2 ≤ g.2.length ∧ g.1 ≠ "" ∧ ∀ m ∈ g.2, keyOf m = g.1 := by
  intro g hg
  unfold duplicateGroupsOf at hg
  rcases List.mem_filter.mp hg with ⟨hmem, hlen⟩
  rcases nameGroupsOf_wf keyOf records g hmem with ⟨h1, _, h3⟩
  exact ⟨by simpa using hlen, h1, h3⟩

/-! ## Claim theorems: grouper (C6, C7) and pagination (C8) -/

/-- Concrete rows used by witnesses. -/
def wEntityA : Entity :=
  { entity_id := 1, name := some "Acme", trade_name := none, type := 2,
    is_deleted := false, deleted_at := none, updated_at := none }

def wEntityB : Entity :=
  { entity_id := 2, name := some "Acme", trade_name := none, type := 2,
    is_deleted := false, deleted_at := none, updated_at := none }

/-- C6 counterexample: the grouping key the entity controllers compute
for the name "Acme" is the raw string "Acme", not the trimmed lowercased
"acme" the claim requires. -/
theorem c6_entity_key_not_normalized_cex :
    entityGroupKey (some "Acme") ≠ specEntityGroupKey (some "Acme") := by
  decide

/-- C6 (amended): for person records the grouping key is the trimmed,
lowercased first and last name joined by a single separator with empty
parts omitted (exactly the spec's formula); for entity records the
grouping key is the raw designated name (null coalesced to ""), with no
trimming or lowercasing. -/
theorem filter_nonempty_pair (a b : String) :
    ([a, b].filter (fun s => s ≠ "")) =
      if a = "" then (if b = "" then [] else [b])
      else (if b = "" then [a] else [a, b]) := by
  by_cases ha : a = "" <;> by_cases hb : b = "" <;> simp [ha, hb]

theorem c6_grouping_keys_amended :
    (∀ first_name last_name : Option String,
        personGroupKey first_name last_name = specPersonGroupKey first_name last_name)
    ∧ (∀ name : Option String, entityGroupKey name = name.getD "") := by
  constructor
  · intro f l
    simp only [personGroupKey, specPersonGroupKey]
    rw [filter_nonempty_pair]
    by_cases hf : jsToLowerCase (jsTrim (f.getD "")) = "" <;>
      by_cases hl : jsToLowerCase (jsTrim (l.getD "")) = "" <;>
      simp only [hf, hl, if_pos, if_neg, if_true, if_false] <;> rfl
  · intro n
    rfl

/-- C7: every group emitted by the people grouper
(`getDuplicatePeopleByFullNameController`) and by the entity grouper
(`getDuplicateEntitiesByNameWithTypeController`) has at least 2 members,
a non-empty key, and all members share that key. -/
theorem c7_emitted_groups_wellformed :
    (∀ (db : DBState) (k : String) (ms : List People),
        (k, ms) ∈ duplicateGroupsOf (fun p => personGroupKey p.first_name p.last_name)
          (db.people.filter (fun p => p.first_name ≠ none)) →
        2 ≤ ms.length ∧ k ≠ "" ∧ ∀ m ∈ ms, personGroupKey m.first_name m.last_name = k)
    ∧ (∀ (entities : List Entity) (k : String) (ms : List Entity),
        (k, ms) ∈ entityDuplicateGroups entities →
        2 ≤ ms.length ∧ k ≠ "" ∧ ∀ m ∈ ms, entityGroupKey m.name = k) := by
  constructor
  · intro db k ms hmem
    exact duplicateGroupsOf_wf _ _ (k, ms) hmem
  · intro entities k ms hmem
    exact duplicateGroupsOf_wf _ _ (k, ms) hmem

/-- C7 witness: a concrete two-entity population whose single emitted
group satisfies the theorem's conclusion. -/
theorem c7_emitted_groups_wellformed_witness :
    2 ≤ ([wEntityA, wEntityB] : List Entity).length ∧ "Acme" ≠ ""
      ∧ ∀ m ∈ [wEntityA, wEntityB], entityGroupKey m.name = "Acme" :=
  c7_emitted_groups_wellformed.2 [wEntityA, wEntityB] "Acme" [wEntityA, wEntityB]
    (by decide)

/-- C8: for the paginated duplicate-groups-by-type query the returned
slice has at most `limit` entries, entry `i` of the slice is entry
`(page−1)·limit + i` of the full duplicate-group list, and the returned
total is the full duplicate-group count (independent of the page). -/
theorem c8_pagination_window (db : DBState) (parsedType page limit : Nat)
    (hl : 1 ≤ limit) (hp : 1 ≤ page) (out : PaginatedDuplicateGroups)
    (h : getDuplicateEntitiesByNameWithType db parsedType page limit = some out) :
    out.duplicateGroups.length ≤ limit
    ∧ (∀ i, i < limit →
        out.duplicateGroups[i]? =
          (fullDuplicateGroupsByType db parsedType)[(page - 1) * limit + i]?)
    ∧ out.pagination.total = (fullDuplicateGroupsByType db parsedType).length := by
  unfold getDuplicateEntitiesByNameWithType at h
  by_cases ht : parsedType = 1 ∨ parsedType = 2
  · rw [if_pos ht] at h
    injection h with h
    subst h
    refine ⟨?_, ?_, rfl⟩
    · simp [List.length_take]
    · intro i hi
      show (((fullDuplicateGroupsByType db parsedType).drop
          ((page - 1) * limit)).take limit)[i]? = _
      rw [List.getElem?_take, if_pos hi, List.getElem?_drop]
  · rw [if_neg ht] at h
    cases h

/-- C8 witness: concrete database, type 2, page 1, limit 20. -/
theorem c8_pagination_window_witness :
    ((getDuplicateEntitiesByNameWithType
        { entity := [wEntityA, wEntityB], people := [], address := [], entity_property := [] }
        2 1 20).getD
      { duplicateGroups := [], pagination := { limit := 0, page := 0, offset := 0, total := 0 } }
      |>.duplicateGroups.length) ≤ 20 := by
  have h := c8_pagination_window
    { entity := [wEntityA, wEntityB], people := [], address := [], entity_property := [] }
    2 1 20 (by decide) (by decide)
    { duplicateGroups := [{ name := "Acme", duplicateCount := 2 }],
      pagination := { limit := 20, page := 1, offset := 0, total := 1 } } rfl
  exact h.1

/-! ## Lemmas: property merge of the analyze pass (C2) -/

def PropMapWF (acc : List (String × EntityProperty)) : Prop :=
  acc.Pairwise (fun a b => a.1 ≠ b.1)
  ∧ ∀ kv ∈ acc, kv.1 = propMapKey kv.2 ∧ truthyValue kv.2.property_value = true

theorem propMapKey_eq_of_propPair_eq {a b : EntityProperty}
    (h : propPair a = propPair b) : propMapKey a = propMapKey b := by
  have h1 := congrArg Prod.fst h
  have h2 := congrArg Prod.snd h
  simp only [propPair] at h1 h2
  unfold propMapKey
  rw [h1, h2]

theorem fst_ite_pair {c : Prop} [Decidable c] (kv : String × EntityProperty)
    (x : EntityProperty) : (if c then (kv.1, x) else kv).1 = kv.1 := by
  split <;> rfl

/-- The three shapes `propMapInsert` can take. -/
theorem propMapInsert_cases (kid : Nat) (acc : List (String × EntityProperty))
    (p : EntityProperty) :
    (truthyValue p.property_value = false ∧ propMapInsert kid acc p = acc)
    ∨ (truthyValue p.property_value = true
        ∧ acc.any (fun kv => kv.1 = propMapKey p) = true
        ∧ ((p.is_primary = some "Yes"
              ∧ propMapInsert kid acc p = acc.map (fun kv =>
                  if kv.1 = propMapKey p then
                    (kv.1, { kv.2 with is_primary := some "Yes" }) else kv))
            ∨ (p.is_primary ≠ some "Yes" ∧ propMapInsert kid acc p = acc)))
    ∨ (truthyValue p.property_value = true
        ∧ acc.any (fun kv => kv.1 = propMapKey p) = false
        ∧ propMapInsert kid acc p =
            acc ++ [(propMapKey p, { p with entity_id := kid })]) := by
  unfold propMapInsert
  by_cases htr : truthyValue p.property_value
  · by_cases hany : acc.any (fun kv => kv.1 = propMapKey p)
    · by_cases hyes : p.is_primary = some "Yes"
      · exact Or.inr (Or.inl ⟨htr, hany, Or.inl ⟨hyes, by simp [htr, hany, hyes]⟩⟩)
      · exact Or.inr (Or.inl ⟨htr, hany, Or.inr ⟨hyes, by simp [htr, hany, hyes]⟩⟩)
    · refine Or.inr (Or.inr ⟨htr, by rwa [Bool.not_eq_true] at hany, ?_⟩)
      simp [htr, hany]
  · refine Or.inl ⟨by simpa using htr, ?_⟩
    simp [htr]

theorem propMapInsert_wf (kid : Nat) (acc : List (String × EntityProperty))
    (p : EntityProperty) (h : PropMapWF acc) : PropMapWF (propMapInsert kid acc p) := by
  obtain ⟨hpw, hmem⟩ := h
  rcases propMapInsert_cases kid acc p with ⟨_, heq⟩ | ⟨htr, hany, hcase⟩ | ⟨htr, hany, heq⟩
  · rw [heq]; exact ⟨hpw, hmem⟩
  · rcases hcase with ⟨_, heq⟩ | ⟨_, heq⟩
    · rw [heq]
      constructor
      · rw [List.pairwise_map]
        refine hpw.imp_of_mem ?_
        intro a b _ _ hab
        simpa [fst_ite_pair] using hab
      · intro kv hkv
        rcases List.mem_map.mp hkv with ⟨kv0, hkv0, hmap⟩
        rcases hmem kv0 hkv0 with ⟨hk0, ht0⟩
        subst hmap
        by_cases hke : kv0.1 = propMapKey p
        · rw [if_pos hke]
          exact ⟨hk0, ht0⟩
        · rw [if_neg hke]
          exact ⟨hk0, ht0⟩
    · rw [heq]; exact ⟨hpw, hmem⟩
  · rw [heq]
    constructor
    · rw [List.pairwise_append]
      refine ⟨hpw, List.pairwise_singleton _ _, ?_⟩
      intro a ha b hb
      simp only [List.mem_singleton] at hb
      subst hb
      intro hcontra
      rw [List.any_eq_false] at hany
      exact absurd (by simpa using hcontra) (by simpa using hany a ha)
    · intro kv hkv
      rcases List.mem_append.mp hkv with hk1 | hk2
      · exact hmem kv hk1
      · simp only [List.mem_singleton] at hk2
        subst hk2
        refine ⟨rfl, htr⟩

/-- "There is an entry at key `K` and it is primary" — the fact that,
once established for a key, survives the rest of the propMap loop. -/
def PrimaryAt (K : String) (acc : List (String × EntityProperty)) : Prop :=
  ∃ kv ∈ acc, kv.1 = K ∧ kv.2.is_primary = some "Yes"

theorem propMapInsert_primaryAt_mono (kid : Nat) (K : String)
    (acc : List (String × EntityProperty)) (p : EntityProperty)
    (h : PrimaryAt K acc) : PrimaryAt K (propMapInsert kid acc p) := by
  rcases h with ⟨kv, hkv, hk, hprim⟩
  rcases propMapInsert_cases kid acc p with ⟨_, heq⟩ | ⟨_, _, hcase⟩ | ⟨_, _, heq⟩
  · rw [heq]; exact ⟨kv, hkv, hk, hprim⟩
  · rcases hcase with ⟨_, heq⟩ | ⟨_, heq⟩
    · rw [heq]
      by_cases hke : kv.1 = propMapKey p
      · exact ⟨(kv.1, { kv.2 with is_primary := some "Yes" }),
          List.mem_map.mpr ⟨kv, hkv, if_pos hke⟩, hk, rfl⟩
      · exact ⟨kv, List.mem_map.mpr ⟨kv, hkv, if_neg hke⟩, hk, hprim⟩
    · rw [heq]; exact ⟨kv, hkv, hk, hprim⟩
  · rw [heq]
    exact ⟨kv, List.mem_append_left _ hkv, hk, hprim⟩

theorem propMapInsert_establishes_primary (kid : Nat)
    (acc : List (String × EntityProperty)) (p : EntityProperty)
    (htr : truthyValue p.property_value = true) (hyes : p.is_primary = some "Yes") :
    PrimaryAt (propMapKey p) (propMapInsert kid acc p) := by
  rcases propMapInsert_cases kid acc p with ⟨hf, _⟩ | ⟨_, hany, hcase⟩ | ⟨_, _, heq⟩
  · rw [htr] at hf; cases hf
  · rcases hcase with ⟨_, heq⟩ | ⟨hno, _⟩
    · rw [heq]
      rcases List.any_eq_true.mp hany with ⟨kv0, hkv0, hk0⟩
      simp only [decide_eq_true_eq] at hk0
      exact ⟨(kv0.1, { kv0.2 with is_primary := some "Yes" }),
        List.mem_map.mpr ⟨kv0, hkv0, if_pos hk0⟩, hk0, rfl⟩
    · exact absurd hyes hno
  · rw [heq]
    exact ⟨(propMapKey p, { p with entity_id := kid }),
      List.mem_append_right _ (List.mem_singleton_self _), rfl, hyes⟩

theorem foldl_propMapInsert_wf (kid : Nat) (ps : List EntityProperty) :
    ∀ acc, PropMapWF acc → PropMapWF (ps.foldl (propMapInsert kid) acc) := by
  induction ps with
  | nil => intro acc h; exact h
  | cons p ps ih =>
    intro acc h
    exact ih (propMapInsert kid acc p) (propMapInsert_wf kid acc p h)

theorem foldl_propMapInsert_primaryAt (kid : Nat) (K : String)
    (ps : List EntityProperty) :
    ∀ acc, PrimaryAt K acc → PrimaryAt K (ps.foldl (propMapInsert kid) acc) := by
  induction ps with
  | nil => intro acc h; exact h
  | cons p ps ih =>
    intro acc h
    exact ih (propMapInsert kid acc p) (propMapInsert_primaryAt_mono kid K acc p h)

theorem foldl_propMapInsert_primary_of_mem (kid : Nat)
    (q : EntityProperty) (htr : truthyValue q.property_value = true)
    (hyes : q.is_primary = some "Yes") :
    ∀ (ps : List EntityProperty) (acc : List (String × EntityProperty)),
      q ∈ ps → PrimaryAt (propMapKey q) (ps.foldl (propMapInsert kid) acc) := by
  intro ps
  induction ps with
  | nil => intro acc h; cases h
  | cons p ps ih =>
    intro acc hq
    rcases List.mem_cons.mp hq with rfl | hq'
    · exact foldl_propMapInsert_primaryAt kid (propMapKey q) ps _
        (propMapInsert_establishes_primary kid acc q htr hyes)
    · exact ih (propMapInsert kid acc p) hq'

/-- C2: the merged property list of the analyze pass has pairwise
distinct `(property_id, normalized value)` keys, and an entry is primary
whenever any contributing property with the same key is primary. -/
theorem c2_merged_properties_dedup_and_primary (keptEntityId : Nat)
    (allProps : List EntityProperty) :
    ((mergedPropertiesOf keptEntityId allProps).Pairwise
        (fun a b => propPair a ≠ propPair b))
    ∧ (∀ q ∈ allProps, truthyValue q.property_value = true →
        q.is_primary = some "Yes" →
        ∀ e ∈ mergedPropertiesOf keptEntityId allProps,
          propPair e = propPair q → e.is_primary = some "Yes") := by
  have hwf : PropMapWF (allProps.foldl (propMapInsert keptEntityId) []) :=
    foldl_propMapInsert_wf keptEntityId allProps []
      ⟨List.Pairwise.nil, by intro kv hkv; cases hkv⟩
  obtain ⟨hpw, hmem⟩ := hwf
  constructor
  · unfold mergedPropertiesOf
    rw [List.pairwise_map]
    refine hpw.imp_of_mem ?_
    intro a b ha hb hab hpair
    exact hab (((hmem a ha).1.trans (propMapKey_eq_of_propPair_eq hpair)).trans
      (hmem b hb).1.symm)
  · intro q hq htr hyes e he hpair
    rcases List.mem_map.mp he with ⟨kv, hkv, rfl⟩
    rcases foldl_propMapInsert_primary_of_mem keptEntityId q htr hyes allProps [] hq
      with ⟨kv0, hkv0, hk0, hprim0⟩
    have hkvK : kv.1 = propMapKey q :=
      ((hmem kv hkv).1.trans (propMapKey_eq_of_propPair_eq hpair))
    have : kv = kv0 := by
      by_contra hne
      exact (List.Pairwise.forall (fun a b h => h.symm) hpw hkv hkv0 hne)
        (hkvK.trans hk0.symm)
    rw [this]
    exact hprim0

def wPropKept : EntityProperty :=
  { entity_property_id := 10, entity_id := 3, property_id := 5,
    property_value := some "A ", is_primary := none,
    created_at := none, updated_at := none }

def wPropRemoved : EntityProperty :=
  { entity_property_id := 11, entity_id := 4, property_id := 5,
    property_value := some " a", is_primary := some "Yes",
    created_at := none, updated_at := none }

/-- The single entry the propMap produces for `[wPropKept, wPropRemoved]`
(first-seen record, re-parented, with the primary flag ORed in). -/
def wPropMerged : EntityProperty :=
  { entity_property_id := 10, entity_id := 1, property_id := 5,
    property_value := some "A ", is_primary := some "Yes",
    created_at := none, updated_at := none }

/-- C2 witness: merging a non-primary kept property with a primary
removed property of the same normalized key yields a primary entry. -/
theorem c2_merged_properties_dedup_and_primary_witness :
    wPropMerged.is_primary = some "Yes" :=
  (c2_merged_properties_dedup_and_primary 1 [wPropKept, wPropRemoved]).2
    wPropRemoved (by decide) (by decide) (by decide) wPropMerged (by decide) (by decide)

/-! ## Claim theorems: the two resolve-duplicates endpoints -/

/-- C9: the `/entities/resolve-duplicates` and
`/entities/resolve-duplicates/manual` handlers are behaviourally
identical: on every database state, clock value and payload they perform
the same checks and mutations and return the same state and the same
success payload or error. -/
theorem c9_manual_endpoint_identical :
    ∀ (db : DBState) (now : Nat) (payload : ApplyMergePayload),
      applyEntitiesDuplicateMergeController db now payload =
        applyEntitiesDuplicateMergeManuallyController db now payload :=
  fun _ _ _ => rfl

/-- C4: a merge request whose `keep_entity_id` occurs in
`remove_entity_ids` fails with a ValidationError (either the
required-field error when the id is falsy, or the
keep-cannot-be-in-remove error) and leaves every table unchanged. -/
theorem c4_keep_in_remove_rejected (db : DBState) (now : Nat)
    (payload : ApplyMergePayload)
    (h : payload.keep_entity_id ∈ payload.remove_entity_ids) :
    ∃ e : MergeError, applyEntitiesDuplicateMergeController db now payload
        = (db, Except.error e) ∧ e.isValidationError = true := by
  unfold applyEntitiesDuplicateMergeController
  by_cases hz : payload.keep_entity_id = 0
  · exact ⟨.keepEntityIdRequired, by rw [if_pos hz], rfl⟩
  · rw [if_neg hz]
    have hne : payload.remove_entity_ids.isEmpty = false :=
      List.isEmpty_eq_false_iff_exists_mem.mpr ⟨_, h⟩
    rw [hne]
    simp only [Bool.false_eq_true, if_false]
    exact ⟨.keepInRemove, by rw [if_pos h], rfl⟩

def wMergedEntityEmpty : MergedEntityPayload :=
  { name := none, trade_name := none, people := [], address := [],
    entity_property_entity_property_entity_idToentity := [] }

def wPayloadKeepInRemove : ApplyMergePayload :=
  { keep_entity_id := 1, remove_entity_ids := [1],
    merged_entity := wMergedEntityEmpty }

def wDbEmpty : DBState :=
  { entity := [], people := [], address := [], entity_property := [] }

/-- C4 witness: `keep_entity_id = 1` listed in `remove_entity_ids`. -/
theorem c4_keep_in_remove_rejected_witness :
    ∃ e : MergeError, applyEntitiesDuplicateMergeController wDbEmpty 0 wPayloadKeepInRemove
        = (wDbEmpty, Except.error e) ∧ e.isValidationError = true :=
  c4_keep_in_remove_rejected wDbEmpty 0 wPayloadKeepInRemove (by decide)

/-! ## Claim C3: property full-replace (code bug at the update branch) -/

/-- A property row owned by the kept entity (id 1) before the merge. -/
def wKeptOwnedProperty : EntityProperty :=
  { entity_property_id := 100, entity_id := 1, property_id := 5,
    property_value := some "a@x.com", is_primary := some "Yes",
    created_at := none, updated_at := none }

def wDbKeptProperty : DBState :=
  { entity := [wEntityA, wEntityB], people := [], address := [],
    entity_property := [wKeptOwnedProperty] }

/-- A merged-property payload entry that re-submits the kept entity's own
property row (as the analyze pass's proposals do), carrying its id. -/
def wPropertyPayloadKeptId : PropertyPayload :=
  { entity_property_id := 100, property_id := 5,
    property_value := some "a@x.com", is_primary := some "Yes",
    created_at := none, updated_at := none }

def wMergedEntityResubmit : MergedEntityPayload :=
  { name := none, trade_name := none, people := [], address := [],
    entity_property_entity_property_entity_idToentity := [wPropertyPayloadKeptId] }

def wPayloadResubmitKeptProperty : ApplyMergePayload :=
  { keep_entity_id := 1, remove_entity_ids := [2],
    merged_entity := wMergedEntityResubmit }

/-- C3 (code bug): a fully valid merge request whose merged property set
re-submits a property row owned by the kept entity does not end with the
kept entity owning exactly the supplied set — the transaction aborts
(`tx.entity_property.update` targets a row the preceding `deleteMany`
already removed, Prisma P2025) and every table is left unchanged. -/
theorem c3_property_full_replace_fails_on_kept_ids :
    applyEntitiesDuplicateMergeController wDbKeptProperty 7 wPayloadResubmitKeptProperty
      = (wDbKeptProperty, Except.error (MergeError.mergeFailed TxError.recordNotFound)) :=
  rfl

/-! ## Lemmas: the entity-count check (C5, C10, C1) -/

/-- The rows the controllers fetch for an id list: each row of the
entity table whose id is in the list and which is not soft-deleted. -/
def fetchedEntities (db : DBState) (ids : List Nat) : List Entity :=
  db.entity.filter (fun e => decide (e.entity_id ∈ ids) && !e.is_deleted)

theorem fetchedEntities_ids_nodup (db : DBState) (ids : List Nat)
    (hN : (db.entity.map (fun e => e.entity_id)).Nodup) :
    ((fetchedEntities db ids).map (fun e => e.entity_id)).Nodup :=
  hN.sublist (List.Sublist.map _ (List.filter_sublist _))

theorem fetchedEntities_ids_subset (db : DBState) (ids : List Nat) :
    ∀ x ∈ (fetchedEntities db ids).map (fun e => e.entity_id), x ∈ ids := by
  intro x hx
  rcases List.mem_map.mp hx with ⟨e, he, rfl⟩
  have := (List.mem_filter.mp he).2
  simp only [Bool.and_eq_true, decide_eq_true_eq] at this
  exact this.1

theorem nodup_subset_length_le {l m : List Nat} (hn : l.Nodup)
    (hs : ∀ x ∈ l, x ∈ m) : l.length ≤ m.toFinset.card := by
  calc l.length = l.toFinset.card := (List.toFinset_card_of_nodup hn).symm
    _ ≤ m.toFinset.card := Finset.card_le_card (fun x hx =>
        List.mem_toFinset.mpr (hs x (List.mem_toFinset.mp hx)))

theorem toFinset_card_lt_of_not_nodup {m : List Nat} (h : ¬m.Nodup) :
    m.toFinset.card < m.length := by
  rw [List.card_toFinset]
  rcases Nat.lt_or_ge m.dedup.length m.length with hlt | hge
  · exact hlt
  · exfalso
    have hsub := List.dedup_sublist m
    have hlen := Nat.le_antisymm (hsub.length_le) hge
    have := hsub.eq_of_length hlen
    exact h (this ▸ List.nodup_dedup m)

/-- With unique primary keys, a duplicated requested id makes the
fetched-row count fall short of the requested count. -/
theorem fetched_lt_of_dup (db : DBState) (ids : List Nat)
    (hN : (db.entity.map (fun e => e.entity_id)).Nodup) (hdup : ¬ids.Nodup) :
    (fetchedEntities db ids).length < ids.length := by
  have h1 : (fetchedEntities db ids).length
      = ((fetchedEntities db ids).map (fun e => e.entity_id)).length :=
    (List.length_map _ _).symm
  calc (fetchedEntities db ids).length
      ≤ ids.toFinset.card := by
        rw [h1]
        exact nodup_subset_length_le (fetchedEntities_ids_nodup db ids hN)
          (fetchedEntities_ids_subset db ids)
    _ < ids.length := toFinset_card_lt_of_not_nodup hdup

/-- With unique primary keys, a requested id with no live row makes the
fetched-row count fall short of the requested count. -/
theorem fetched_lt_of_missing (db : DBState) (ids : List Nat) (x : Nat)
    (hN : (db.entity.map (fun e => e.entity_id)).Nodup) (hx : x ∈ ids)
    (hmiss : x ∉ (fetchedEntities db ids).map (fun e => e.entity_id)) :
    (fetchedEntities db ids).length < ids.length := by
  have h1 : (fetchedEntities db ids).length
      = ((fetchedEntities db ids).map (fun e => e.entity_id)).length :=
    (List.length_map _ _).symm
  have h2 : ((fetchedEntities db ids).map (fun e => e.entity_id)).toFinset
      ⊆ ids.toFinset.erase x := by
    intro y hy
    have hym := List.mem_toFinset.mp hy
    refine Finset.mem_erase.mpr ⟨?_, List.mem_toFinset.mpr
      (fetchedEntities_ids_subset db ids y hym)⟩
    intro hyx
    exact hmiss (hyx ▸ hym)
  have h3 : ((fetchedEntities db ids).map (fun e => e.entity_id)).length
      ≤ (ids.toFinset.erase x).card := by
    rw [(List.toFinset_card_of_nodup (fetchedEntities_ids_nodup db ids hN)).symm]
    exact Finset.card_le_card h2
  have h4 : (ids.toFinset.erase x).card < ids.toFinset.card :=
    Finset.card_erase_lt_of_mem (List.mem_toFinset.mpr hx)
  have h5 : ids.toFinset.card ≤ ids.length := ids.toFinset_card_le
  omega

theorem applyMerge_entitiesNotFound (db : DBState) (now : Nat)
    (payload : ApplyMergePayload)
    (hz : payload.keep_entity_id ≠ 0)
    (hne : payload.remove_entity_ids ≠ [])
    (hnm : payload.keep_entity_id ∉ payload.remove_entity_ids)
    (hlen : (fetchedEntities db (payload.keep_entity_id :: payload.remove_entity_ids)).length
        ≠ (payload.keep_entity_id :: payload.remove_entity_ids).length) :
    applyEntitiesDuplicateMergeController db now payload =
      (db, Except.error (MergeError.entitiesNotFound
        ((payload.keep_entity_id :: payload.remove_entity_ids).filter
          (fun i => i ∉ (fetchedEntities db
            (payload.keep_entity_id :: payload.remove_entity_ids)).map
              (fun e => e.entity_id))))) := by
  unfold applyEntitiesDuplicateMergeController
  rw [if_neg hz]
  rw [if_neg (by simp [List.isEmpty_iff, hne] : ¬payload.remove_entity_ids.isEmpty = true)]
  rw [if_neg hnm]
  unfold_let
  split_ifs with h
  · rfl
  · exact absurd hlen h

/-- A requested id with no live entity row is never among the fetched
ids. -/
theorem not_mem_foundIds (db : DBState) (ids : List Nat) (y : Nat)
    (hmiss : ¬ ∃ e ∈ db.entity, e.entity_id = y ∧ e.is_deleted = false) :
    y ∉ (fetchedEntities db ids).map (fun e => e.entity_id) := by
  intro hy
  rcases List.mem_map.mp hy with ⟨e, he, rfl⟩
  rcases List.mem_filter.mp he with ⟨hedb, hpred⟩
  simp only [Bool.and_eq_true, decide_eq_true_eq, Bool.not_eq_true'] at hpred
  exact hmiss ⟨e, hedb, rfl, hpred.2⟩

/-- A requested id with a live entity row is always among the fetched
ids. -/
theorem mem_foundIds (db : DBState) (ids : List Nat) (y : Nat) (hy : y ∈ ids)
    (hlive : ∃ e ∈ db.entity, e.entity_id = y ∧ e.is_deleted = false) :
    y ∈ (fetchedEntities db ids).map (fun e => e.entity_id) := by
  rcases hlive with ⟨e, hedb, hid, hdel⟩
  refine List.mem_map.mpr ⟨e, ?_, hid⟩
  refine List.mem_filter.mpr ⟨hedb, ?_⟩
  simp [hid, hy, hdel]

/-- C5 (amended): for a merge request that passes the structural checks
(`keep_entity_id` nonzero, `remove_entity_ids` nonempty, keep not in
remove) and references some id with no existing non-deleted Entity, the
request fails with the not-found error, its id list contains every
missing or already-deleted requested id, and no table is mutated. -/
theorem c5_missing_ids_rejected_with_notfound (db : DBState) (now : Nat)
    (payload : ApplyMergePayload)
    (hN : (db.entity.map (fun e => e.entity_id)).Nodup)
    (hz : payload.keep_entity_id ≠ 0)
    (hne : payload.remove_entity_ids ≠ [])
    (hnm : payload.keep_entity_id ∉ payload.remove_entity_ids)
    (x : Nat) (hx : x ∈ payload.keep_entity_id :: payload.remove_entity_ids)
    (hmiss : ¬ ∃ e ∈ db.entity, e.entity_id = x ∧ e.is_deleted = false) :
    ∃ missing : List Nat,
      applyEntitiesDuplicateMergeController db now payload
          = (db, Except.error (MergeError.entitiesNotFound missing))
      ∧ ∀ y ∈ payload.keep_entity_id :: payload.remove_entity_ids,
          (¬ ∃ e ∈ db.entity, e.entity_id = y ∧ e.is_deleted = false) →
            y ∈ missing := by
  have hxnot := not_mem_foundIds db
    (payload.keep_entity_id :: payload.remove_entity_ids) x hmiss
  have hlen := Nat.ne_of_lt (fetched_lt_of_missing db
    (payload.keep_entity_id :: payload.remove_entity_ids) x hN hx hxnot)
  refine ⟨_, applyMerge_entitiesNotFound db now payload hz hne hnm hlen, ?_⟩
  intro y hy hymiss
  refine List.mem_filter.mpr ⟨hy, ?_⟩
  simpa using not_mem_foundIds db
    (payload.keep_entity_id :: payload.remove_entity_ids) y hymiss

/-- C10: a merge request listing the same id twice in
`remove_entity_ids` is rejected before any mutation even when every
referenced entity exists and is non-deleted: the fetched count (one per
distinct id) cannot reach the multiplicity-counting requested length, so
the length check fails, with an empty "missing" id list interpolated
into the message. -/
theorem c10_duplicate_remove_ids_rejected (db : DBState) (now : Nat)
    (payload : ApplyMergePayload)
    (hN : (db.entity.map (fun e => e.entity_id)).Nodup)
    (hdup : ¬payload.remove_entity_ids.Nodup)
    (hz : payload.keep_entity_id ≠ 0)
    (hnm : payload.keep_entity_id ∉ payload.remove_entity_ids)
    (hlive : ∀ y ∈ payload.keep_entity_id :: payload.remove_entity_ids,
        ∃ e ∈ db.entity, e.entity_id = y ∧ e.is_deleted = false) :
    applyEntitiesDuplicateMergeController db now payload
      = (db, Except.error (MergeError.entitiesNotFound [])) := by
  have hne : payload.remove_entity_ids ≠ [] := by
    intro h
    exact hdup (h ▸ List.nodup_nil)
  have hdup' : ¬(payload.keep_entity_id :: payload.remove_entity_ids).Nodup := by
    intro h
    exact hdup (List.Nodup.of_cons h)
  have hlen := Nat.ne_of_lt (fetched_lt_of_dup db
    (payload.keep_entity_id :: payload.remove_entity_ids) hN hdup')
  rw [applyMerge_entitiesNotFound db now payload hz hne hnm hlen]
  have hfilter : (payload.keep_entity_id :: payload.remove_entity_ids).filter
      (fun i => i ∉ (fetchedEntities db
        (payload.keep_entity_id :: payload.remove_entity_ids)).map
          (fun e => e.entity_id)) = [] := by
    rw [List.filter_eq_nil_iff]
    intro y hy
    simpa using mem_foundIds db
      (payload.keep_entity_id :: payload.remove_entity_ids) y hy (hlive y hy)
  rw [hfilter]

/-- C5 counterexample: the request `keep_entity_id = 1`,
`remove_entity_ids = [1]` against an empty entity table references an id
(1) with no existing non-deleted Entity, yet it does not fail with the
not-found error naming id 1 — the keep-in-remove structural check fires
first. -/
theorem c5_notfound_not_universal_cex :
    ¬ ∃ missing : List Nat,
      (applyEntitiesDuplicateMergeController wDbEmpty 0 wPayloadKeepInRemove).2
          = Except.error (MergeError.entitiesNotFound missing)
        ∧ 1 ∈ missing := by
  rintro ⟨missing, h, _⟩
  have h0 : (applyEntitiesDuplicateMergeController wDbEmpty 0 wPayloadKeepInRemove).2
      = Except.error MergeError.keepInRemove := rfl
  rw [h0] at h
  injection h with h
  cases h

def wEntityOnlyOne : Entity :=
  { entity_id := 1, name := some "Acme", trade_name := none, type := 2,
    is_deleted := false, deleted_at := none, updated_at := none }

def wDbOnlyEntityOne : DBState :=
  { entity := [wEntityOnlyOne], people := [], address := [], entity_property := [] }

def wPayloadRemoveMissing : ApplyMergePayload :=
  { keep_entity_id := 1, remove_entity_ids := [5],
    merged_entity := wMergedEntityEmpty }

/-- C5 witness: keep = 1 exists, remove = [5] does not; the not-found
error is returned and 5 is reported. -/
theorem c5_missing_ids_rejected_with_notfound_witness :
    ∃ missing : List Nat,
      applyEntitiesDuplicateMergeController wDbOnlyEntityOne 0 wPayloadRemoveMissing
          = (wDbOnlyEntityOne, Except.error (MergeError.entitiesNotFound missing))
      ∧ ∀ y ∈ [1, 5],
          (¬ ∃ e ∈ wDbOnlyEntityOne.entity, e.entity_id = y ∧ e.is_deleted = false) →
            y ∈ missing :=
  c5_missing_ids_rejected_with_notfound wDbOnlyEntityOne 0 wPayloadRemoveMissing
    (by decide) (by decide) (by decide) (by decide) 5 (by decide) (by decide)

def wPayloadDuplicateRemove : ApplyMergePayload :=
  { keep_entity_id := 1, remove_entity_ids := [2, 2],
    merged_entity := wMergedEntityEmpty }

def wDbTwoLiveEntities : DBState :=
  { entity := [wEntityA, wEntityB], people := [], address := [], entity_property := [] }

/-- C10 witness: both referenced entities exist and are live, yet
`remove_entity_ids = [2, 2]` is rejected with the (empty-list) not-found
error and the state is unchanged. -/
theorem c10_duplicate_remove_ids_rejected_witness :
    applyEntitiesDuplicateMergeController wDbTwoLiveEntities 0 wPayloadDuplicateRemove
      = (wDbTwoLiveEntities, Except.error (MergeError.entitiesNotFound [])) :=
  c10_duplicate_remove_ids_rejected wDbTwoLiveEntities 0 wPayloadDuplicateRemove
    (by decide) (by decide) (by decide) (by decide) (by decide)

/-! ## Lemmas: the transaction's effect on the entity table (C1) -/

theorem personUpsertStep_entity (keep : Nat) (ids : List Nat) (now : Nat)
    (s : DBState) (p : PersonPayload) (s2 : DBState)
    (h : personUpsertStep keep ids now s p = .ok s2) : s2.entity = s.entity := by
  unfold personUpsertStep at h
  split_ifs at h <;> (cases h; rfl)

theorem addressUpsertStep_entity (keep : Nat) (ids : List Nat) (now : Nat)
    (s : DBState) (a : AddressPayload) (s2 : DBState)
    (h : addressUpsertStep keep ids now s a = .ok s2) : s2.entity = s.entity := by
  unfold addressUpsertStep at h
  split_ifs at h <;> (cases h; rfl)

theorem propertyUpsertStep_entity (keep : Nat) (ids : List Nat) (now : Nat)
    (s : DBState) (p : PropertyPayload) (s2 : DBState)
    (h : propertyUpsertStep keep ids now s p = .ok s2) : s2.entity = s.entity := by
  unfold propertyUpsertStep at h
  split_ifs at h <;> (cases h; rfl)

theorem foldlM_except_entity {α : Type} (f : DBState → α → Except TxError DBState)
    (hf : ∀ s a s2, f s a = .ok s2 → s2.entity = s.entity) :
    ∀ (l : List α) (s s2 : DBState), l.foldlM f s = .ok s2 → s2.entity = s.entity := by
  intro l
  induction l with
  | nil =>
    intro s s2 h
    simp only [List.foldlM_nil] at h
    cases h
    rfl
  | cons a l ih =>
    intro s s2 h
    rw [List.foldlM_cons] at h
    cases hfa : f s a with
    | error e =>
      rw [hfa] at h
      cases h
    | ok s1 =>
      rw [hfa] at h
      exact (ih s1 s2 h).trans (hf s a s1 hfa)

theorem softDeleteRemovedPeople_entity (ids : List Nat) (now : Nat) (s : DBState) :
    (softDeleteRemovedPeople ids now s).entity = s.entity := by
  unfold softDeleteRemovedPeople
  split <;> rfl

theorem softDeleteRemovedAddresses_entity (ids : List Nat) (now : Nat) (s : DBState) :
    (softDeleteRemovedAddresses ids now s).entity = s.entity := by
  unfold softDeleteRemovedAddresses
  split <;> rfl

theorem hardDeleteRemovedProperties_entity (ids : List Nat) (s : DBState) :
    (hardDeleteRemovedProperties ids s).entity = s.entity := by
  unfold hardDeleteRemovedProperties
  split <;> rfl

/-- The field update `tx.entity.update` applies to the kept entity's row. -/
def keptEntityRowUpdate (keep : Nat) (name : Option String)
    (trade_name : Option (Option String)) (keptName : Option String)
    (now : Nat) (e : Entity) : Entity :=
  if e.entity_id = keep then
    { e with
      name := match name with | some n => some n | none => keptName,
      trade_name := match trade_name with | some v => v | none => e.trade_name,
      updated_at := some now }
  else e

/-- The soft-delete update `tx.entity.updateMany` applies to each row
whose id is in `remove_entity_ids`. -/
def removedEntityRowUpdate (remove_entity_ids : List Nat) (now : Nat)
    (e : Entity) : Entity :=
  if e.entity_id ∈ remove_entity_ids then
    { e with is_deleted := true, deleted_at := some now }
  else e

theorem updateKeptEntityStep_entity (keep : Nat) (name : Option String)
    (trade_name : Option (Option String)) (keptName : Option String)
    (now : Nat) (db s2 : DBState)
    (h : updateKeptEntityStep keep name trade_name keptName now db = .ok s2) :
    s2.entity = db.entity.map (keptEntityRowUpdate keep name trade_name keptName now) := by
  unfold updateKeptEntityStep at h
  split_ifs at h
  cases h
  rfl

/-- A committed transaction maps the entity table by the kept-row field
update followed by the removed-row soft delete; no other change. -/
theorem mergeTransaction_entity (keep : Nat) (remove_entity_ids : List Nat)
    (merged : MergedEntityPayload) (keptName : Option String)
    (keptPeopleIds keptAddressIds keptPropertyIds : List Nat)
    (peopleToDelete addressesToDelete propertiesToDelete : List Nat)
    (now : Nat) (db s2 : DBState)
    (h : mergeTransaction keep remove_entity_ids merged keptName
        keptPeopleIds keptAddressIds keptPropertyIds
        peopleToDelete addressesToDelete propertiesToDelete now db = .ok s2) :
    s2.entity = (db.entity.map (keptEntityRowUpdate keep merged.name
        merged.trade_name keptName now)).map
      (removedEntityRowUpdate remove_entity_ids now) := by
  unfold mergeTransaction at h
  split at h
  · cases h
  rename_i s1 h1
  split at h
  · cases h
  rename_i sp h2
  split at h
  · cases h
  rename_i sa h4
  split at h
  · cases h
  rename_i sq h7
  cases h
  show ((hardDeleteRemovedProperties propertiesToDelete sq).entity.map
    (removedEntityRowUpdate remove_entity_ids now)) = _
  rw [hardDeleteRemovedProperties_entity]
  rw [foldlM_except_entity _ (propertyUpsertStep_entity keep keptPropertyIds now)
    _ _ _ h7]
  show (softDeleteRemovedAddresses addressesToDelete now sa).entity.map _ = _
  rw [softDeleteRemovedAddresses_entity]
  rw [foldlM_except_entity _ (addressUpsertStep_entity keep keptAddressIds now)
    _ _ _ h4]
  rw [softDeleteRemovedPeople_entity]
  rw [foldlM_except_entity _ (personUpsertStep_entity keep keptPeopleIds now)
    _ _ _ h2]
  rw [updateKeptEntityStep_entity keep merged.name merged.trade_name keptName now db s1 h1]


theorem keptEntityRowUpdate_entity_id (keep : Nat) (name : Option String)
    (trade_name : Option (Option String)) (keptName : Option String)
    (now : Nat) (e : Entity) :
    (keptEntityRowUpdate keep name trade_name keptName now e).entity_id = e.entity_id := by
  unfold keptEntityRowUpdate
  split <;> rfl

theorem keptEntityRowUpdate_is_deleted (keep : Nat) (name : Option String)
    (trade_name : Option (Option String)) (keptName : Option String)
    (now : Nat) (e : Entity) :
    (keptEntityRowUpdate keep name trade_name keptName now e).is_deleted = e.is_deleted := by
  unfold keptEntityRowUpdate
  split <;> rfl

theorem removedEntityRowUpdate_entity_id (remove_entity_ids : List Nat)
    (now : Nat) (e : Entity) :
    (removedEntityRowUpdate remove_entity_ids now e).entity_id = e.entity_id := by
  unfold removedEntityRowUpdate
  split <;> rfl

theorem removedEntityRowUpdate_not_mem (remove_entity_ids : List Nat)
    (now : Nat) (e : Entity) (h : e.entity_id ∉ remove_entity_ids) :
    removedEntityRowUpdate remove_entity_ids now e = e := by
  unfold removedEntityRowUpdate
  rw [if_neg h]

theorem removedEntityRowUpdate_mem (remove_entity_ids : List Nat)
    (now : Nat) (e : Entity) (h : e.entity_id ∈ remove_entity_ids) :
    (removedEntityRowUpdate remove_entity_ids now e).is_deleted = true
    ∧ (removedEntityRowUpdate remove_entity_ids now e).deleted_at = some now := by
  unfold removedEntityRowUpdate
  rw [if_pos h]
  exact ⟨rfl, rfl⟩

/-- C1: for every merge request that passes validation and whose
transaction commits, the resulting entity table contains the kept
entity's row non-deleted, and for every id in `remove_entity_ids` a row
with that id soft-deleted with its deletion timestamp set to the
transaction clock. -/
theorem c1_commit_postcondition (db : DBState) (now : Nat)
    (payload : ApplyMergePayload) (s2 : DBState) (resp : MergeResponse)
    (hN : (db.entity.map (fun e => e.entity_id)).Nodup)
    (h : applyEntitiesDuplicateMergeController db now payload = (s2, Except.ok resp)) :
    (∃ e ∈ s2.entity, e.entity_id = payload.keep_entity_id ∧ e.is_deleted = false)
    ∧ (∀ rid ∈ payload.remove_entity_ids,
        ∃ e ∈ s2.entity, e.entity_id = rid ∧ e.is_deleted = true
          ∧ e.deleted_at = some now) := by
  unfold applyEntitiesDuplicateMergeController at h
  split_ifs at h with hz hemp hmem
  · exact Except.noConfusion (congrArg Prod.snd h)
  · exact Except.noConfusion (congrArg Prod.snd h)
  · exact Except.noConfusion (congrArg Prod.snd h)
  unfold_let at h
  split at h
  · exact Except.noConfusion (congrArg Prod.snd h)
  rename_i hlen
  split at h
  · exact Except.noConfusion (congrArg Prod.snd h)
  rename_i keptE hfind
  split at h
  · exact Except.noConfusion (congrArg Prod.snd h)
  rename_i s0 htx
  have hS : s0 = s2 := congrArg Prod.fst h
  subst hS
  have hent := mergeTransaction_entity _ _ _ _ _ _ _ _ _ _ _ _ _ htx
  -- facts about the kept row
  have hkmem := List.mem_of_find?_eq_some hfind
  have hkpred : keptE.entity_id = payload.keep_entity_id := by
    have := List.find?_some hfind
    simpa using this
  have hkfil := List.mem_filter.mp hkmem
  have hkdb : keptE ∈ db.entity := hkfil.1
  have hkdel : keptE.is_deleted = false := by
    have := hkfil.2
    simp only [Bool.and_eq_true, Bool.not_eq_true'] at this
    exact this.2
  -- every requested id has a live row (the count check passed)
  have hlive : ∀ y ∈ payload.keep_entity_id :: payload.remove_entity_ids,
      ∃ e ∈ db.entity, e.entity_id = y ∧ e.is_deleted = false := by
    intro y hy
    by_contra hno
    exact hlen (Nat.ne_of_lt (fetched_lt_of_missing db
      (payload.keep_entity_id :: payload.remove_entity_ids) y hN hy
      (not_mem_foundIds db _ y hno)))
  constructor
  · refine ⟨removedEntityRowUpdate payload.remove_entity_ids now
      (keptEntityRowUpdate payload.keep_entity_id payload.merged_entity.name
        payload.merged_entity.trade_name keptE.name now keptE), ?_, ?_, ?_⟩
    · rw [hent]
      exact List.mem_map_of_mem _ (List.mem_map_of_mem _ hkdb)
    · rw [removedEntityRowUpdate_entity_id, keptEntityRowUpdate_entity_id]
      exact hkpred
    · rw [removedEntityRowUpdate_not_mem]
      · rw [keptEntityRowUpdate_is_deleted]
        exact hkdel
      · rw [keptEntityRowUpdate_entity_id, hkpred]
        exact hmem
  · intro rid hr
    rcases hlive rid (List.mem_cons_of_mem _ hr) with ⟨er, herdb, herid, _⟩
    have hmemr : (keptEntityRowUpdate payload.keep_entity_id
        payload.merged_entity.name payload.merged_entity.trade_name
        keptE.name now er).entity_id ∈ payload.remove_entity_ids := by
      rw [keptEntityRowUpdate_entity_id, herid]
      exact hr
    refine ⟨removedEntityRowUpdate payload.remove_entity_ids now
      (keptEntityRowUpdate payload.keep_entity_id payload.merged_entity.name
        payload.merged_entity.trade_name keptE.name now er), ?_, ?_, ?_, ?_⟩
    · rw [hent]
      exact List.mem_map_of_mem _ (List.mem_map_of_mem _ herdb)
    · rw [removedEntityRowUpdate_entity_id, keptEntityRowUpdate_entity_id]
      exact herid
    · exact (removedEntityRowUpdate_mem _ _ _ hmemr).1
    · exact (removedEntityRowUpdate_mem _ _ _ hmemr).2

def wPayloadSimpleMerge : ApplyMergePayload :=
  { keep_entity_id := 1, remove_entity_ids := [2],
    merged_entity := wMergedEntityEmpty }

/-- The state after applying `wPayloadSimpleMerge` to
`wDbTwoLiveEntities` at clock 7: entity 1 touched (updated_at), entity 2
soft-deleted. -/
def wEntityAAfter : Entity :=
  { entity_id := 1, name := some "Acme", trade_name := none, type := 2,
    is_deleted := false, deleted_at := none, updated_at := some 7 }

def wEntityBAfter : Entity :=
  { entity_id := 2, name := some "Acme", trade_name := none, type := 2,
    is_deleted := true, deleted_at := some 7, updated_at := none }

def wDbAfterSimpleMerge : DBState :=
  { entity := [wEntityAAfter, wEntityBAfter], people := [], address := [],
    entity_property := [] }

/-- C1 witness: a committed two-entity merge leaves entity 1 live and
entity 2 soft-deleted with the timestamp. -/
theorem c1_commit_postcondition_witness :
    (∃ e ∈ wDbAfterSimpleMerge.entity, e.entity_id = 1 ∧ e.is_deleted = false)
    ∧ (∀ rid ∈ [2], ∃ e ∈ wDbAfterSimpleMerge.entity,
        e.entity_id = rid ∧ e.is_deleted = true ∧ e.deleted_at = some 7) :=
  c1_commit_postcondition wDbTwoLiveEntities 7 wPayloadSimpleMerge
    wDbAfterSimpleMerge
    { merged_entity_id := 1, deleted_entity_ids := [2], applied := true }
    (by decide) rfl
